import Mathlib

/-!
# Verification of the `shex` shell interpreter core

A shallow embedding of the `shex` crates (`shex-ast`, `shex-parser`,
`shex-interpreter`) in Lean 4, together with theorems settling the frozen
claims about the expansion-and-execution engine.

Modelling conventions:
* Rust `String`/`&str` is modelled as `List Char` (abbreviated `Str`); Rust
  byte indices coincide with character indices at every position the code
  slices at, because the code only ever slices at positions of characters
  it located itself.
* `HashMap<String, String>` is modelled as an association list with
  insert-or-replace update; `get`/`contains`/insert behaviour is the
  observable interface the code uses.
* Process spawning and file opening (the OS boundary) are supplied by an
  oracle structure `World`; the interpreter walk is otherwise pure and is
  given explicit fuel to make the `while`/`until` loops total.
* Fallible operations return `Except`/`Option`; the mutable
  `VariableContext` is threaded explicitly.
-/

namespace Shex

/-- Rust string slices, modelled as lists of characters. -/
abbrev Str := List Char

/-- Conversion from Lean string literals into the `Str` model. -/
def str (s : String) : Str := s.data

/-! ## shex-ast: spans, positions, source maps -/

/-- `shex_ast::Span`: `(start, end)` offsets into the source text. -/
structure Span where
  start : Nat
  stop : Nat
deriving DecidableEq, Repr

/-- `Span::dummy()`. -/
def Span.dummy : Span := ⟨0, 0⟩

/-- `shex_ast::Position`: a line/column pair. -/
structure Position where
  line : Nat
  column : Nat
deriving DecidableEq, Repr

/-- `shex_ast::SourceMap`: the recorded start offsets of each line. -/
structure SourceMap where
  line_starts : List Nat
deriving DecidableEq, Repr

/-- The scan inside `SourceMap::new`: offsets one past each newline. -/
def computeLineStarts : Str → Nat → List Nat
  | [], _ => []
  | c :: rest, pos =>
    if c = '\n' then (pos + 1) :: computeLineStarts rest (pos + 1)
    else computeLineStarts rest (pos + 1)

/-- `SourceMap::new`: line 1 starts at offset 0; later lines start one past
each newline of the source. -/
def SourceMap.new (source : Str) : SourceMap :=
  ⟨0 :: computeLineStarts source 0⟩

/-- The contract of Rust `slice::binary_search` on the (sorted, duplicate
free) `line_starts` list: `.inl i` when the key sits at index `i`, and
`.inr i` with the insertion point `i` otherwise.  Modelled as a linear scan,
which realises exactly that contract on sorted inputs. -/
def binarySearchGo (key : Nat) : List Nat → Nat → Sum Nat Nat
  | [], i => .inr i
  | x :: rest, i =>
    if x = key then .inl i
    else if key < x then .inr i
    else binarySearchGo key rest (i + 1)

/-- Entry point of the search over `line_starts`. -/
def binarySearch (xs : List Nat) (key : Nat) : Sum Nat Nat :=
  binarySearchGo key xs 0

/-- `SourceMap::position`: map a byte offset to a 1-based line/column. -/
def SourceMap.position (sm : SourceMap) (byte_offset : Nat) : Position :=
  match binarySearch sm.line_starts byte_offset with
  | .inl line => Position.mk (line + 1) 1
  | .inr line =>
    let line_start := sm.line_starts.getD (line - 1) 0
    Position.mk line (byte_offset - line_start + 1)

/-! ## shex-ast: errors -/

/-- `shex_ast::ShexError`: the three error variants, each carrying a span,
a resolved line/column and a filename.  (`Syntax` is named `synError` here;
the other constructor names follow the source.) -/
inductive ShexError where
  | synError (message : Str) (span : Span) (filename : Str) (line : Nat) (column : Nat)
  | undefinedVariable (var : Str) (span : Span) (filename : Str) (line : Nat) (column : Nat)
  | commandNotFound (command : Str) (span : Span) (filename : Str) (line : Nat) (column : Nat)
deriving DecidableEq, Repr

/-- `ShexError::syntax`: build a Syntax error, resolving the span start
through the source map. -/
def ShexError.mkSyn (message : Str) (span : Span) (source_map : SourceMap)
    (filename : Str) : ShexError :=
  let pos := source_map.position span.start
  .synError message span filename pos.line pos.column

/-- `ShexError::undefined_variable`. -/
def ShexError.undefined_variable (var : Str) (span : Span) (source_map : SourceMap)
    (filename : Str) : ShexError :=
  let pos := source_map.position span.start
  .undefinedVariable var span filename pos.line pos.column

/-- `ShexError::command_not_found`. -/
def ShexError.command_not_found (command : Str) (span : Span) (source_map : SourceMap)
    (filename : Str) : ShexError :=
  let pos := source_map.position span.start
  .commandNotFound command span filename pos.line pos.column

/-- The filename recorded in an error. -/
def ShexError.filenameOf : ShexError → Str
  | .synError _ _ f _ _ => f
  | .undefinedVariable _ _ f _ _ => f
  | .commandNotFound _ _ f _ _ => f

/-- The line recorded in an error. -/
def ShexError.lineOf : ShexError → Nat
  | .synError _ _ _ l _ => l
  | .undefinedVariable _ _ _ l _ => l
  | .commandNotFound _ _ _ l _ => l

/-- The column recorded in an error. -/
def ShexError.columnOf : ShexError → Nat
  | .synError _ _ _ _ c => c
  | .undefinedVariable _ _ _ _ c => c
  | .commandNotFound _ _ _ _ c => c

/-- The span recorded in an error (`ShexError::span`). -/
def ShexError.spanOf : ShexError → Span
  | .synError _ sp _ _ _ => sp
  | .undefinedVariable _ sp _ _ _ => sp
  | .commandNotFound _ sp _ _ _ => sp

/-- Decimal rendering of a number, as Rust's `Display` for `usize` does. -/
def natStr (n : Nat) : Str := (Nat.repr n).data

/-- The `thiserror` `#[error("...")]` renderings of the three variants,
transliterated from `shex-ast/src/lib.rs`. -/
def ShexError.render : ShexError → Str
  | .synError message _ filename line column =>
    str "Shex:" ++ filename ++ str ":" ++ natStr line ++ str ":" ++ natStr column ++
      str ": ERR_SYNTAX: " ++ message
  | .undefinedVariable var _ filename line column =>
    str "Shex:" ++ filename ++ str ":" ++ natStr line ++ str ":" ++ natStr column ++
      str ": ERR_UNDEF_VAR: " ++ var ++ str " is not set"
  | .commandNotFound command _ filename line column =>
    str "Shex:" ++ filename ++ str ":" ++ natStr line ++ str ":" ++ natStr column ++
      str ": ERR_COMMAND_NOT_FOUND: " ++ command ++ str " not found"

/-- The error wire format as the specification words it:
`Shex:{filename}:{line}:{column}: ERR_{KIND}: {detail}`. -/
def wireFormat (filename line column kind detail : Str) : Str :=
  str "Shex:" ++ filename ++ str ":" ++ line ++ str ":" ++ column ++
    str ": ERR_" ++ kind ++ str ": " ++ detail

/-- The `KIND` of each error variant, per the specification's taxonomy. -/
def ShexError.kindOf : ShexError → Str
  | .synError _ _ _ _ _ => str "SYNTAX"
  | .undefinedVariable _ _ _ _ _ => str "UNDEF_VAR"
  | .commandNotFound _ _ _ _ _ => str "COMMAND_NOT_FOUND"

/-- The `detail` text of each error variant, read off the source's
format strings. -/
def ShexError.detailOf : ShexError → Str
  | .synError message _ _ _ _ => message
  | .undefinedVariable var _ _ _ _ => var ++ str " is not set"
  | .commandNotFound command _ _ _ _ => command ++ str " not found"

/-! ## shex-parser: variable resolver -/

/-- Insert-or-replace update of an association list, the observable
behaviour of `HashMap::insert`. -/
def setVar : List (Str × Str) → Str → Str → List (Str × Str)
  | [], name, value => [(name, value)]
  | (k, v) :: rest, name, value =>
    if k = name then (name, value) :: rest else (k, v) :: setVar rest name value

/-- Key lookup in the association list, the observable behaviour of
`HashMap::get`. -/
def getVar : List (Str × Str) → Str → Option Str
  | [], _ => none
  | (k, v) :: rest, name => if k = name then some v else getVar rest name

/-- `shex_parser::variable_resolver::VariableContext`: local bindings plus
an optional parent scope.  (The Rust field `variables` is called `vars`
here; `variables` is reserved in Lean.) -/
inductive VariableContext where
  | mk (vars : List (Str × Str)) (parent : Option VariableContext)

/-- The local bindings of a context. -/
def VariableContext.vars : VariableContext → List (Str × Str)
  | .mk vs _ => vs

/-- The parent of a context. -/
def VariableContext.parent : VariableContext → Option VariableContext
  | .mk _ p => p

/-- `VariableContext::new`. -/
def VariableContext.new : VariableContext := .mk [] none

/-- `VariableContext::with_parent`. -/
def VariableContext.with_parent (parent : VariableContext) : VariableContext :=
  .mk [] (some parent)

/-- `VariableContext::set`: always writes into the local map. -/
def VariableContext.set : VariableContext → Str → Str → VariableContext
  | .mk vs p, name, value => .mk (setVar vs name value) p

/-- `VariableContext::get`: local lookup first, then the parent chain. -/
def VariableContext.get : VariableContext → Str → Option Str
  | .mk vs none, name => getVar vs name
  | .mk vs (some parent), name =>
    match getVar vs name with
    | some v => some v
    | none => parent.get name

/-- `VariableContext::contains`. -/
def VariableContext.contains : VariableContext → Str → Bool
  | .mk vs p, name =>
    (getVar vs name).isSome ||
      (match p with
       | some parent => parent.contains name
       | none => false)

/-- `shex_parser::variable_resolver::ExpansionMode`. -/
inductive ExpansionMode where
  | normal
  | defaultValue
  | assignDefault
  | errorIfUnset
  | alternativeValue
deriving DecidableEq, Repr

/-- `shex_parser::variable_resolver::ExpansionRequest`. -/
structure ExpansionRequest where
  variable_name : Str
  mode : ExpansionMode
  parameter : Option Str
  check_unset : Bool
deriving DecidableEq, Repr

/-- `ExpansionRequest::simple`. -/
def ExpansionRequest.simple (variable_name : Str) : ExpansionRequest :=
  ⟨variable_name, .normal, none, false⟩

/-- `shex_parser::variable_resolver::ResolutionResult`. -/
inductive ResolutionResult where
  | resolved (value : Str)
  | unset
  | errorMsg (message : Str)
deriving DecidableEq, Repr

/-- `resolve_expansion`: resolve a request against a context.  The Rust
function takes `&mut VariableContext`; here the (possibly updated) context
is returned alongside the result. -/
def resolve_expansion (context : VariableContext) (request : ExpansionRequest) :
    ResolutionResult × VariableContext :=
  match request.mode with
  | .normal =>
    match context.get request.variable_name with
    | some value => (.resolved value, context)
    | none => (.unset, context)
  | .defaultValue =>
    match context.get request.variable_name with
    | some value =>
      if !value.isEmpty || !request.check_unset then (.resolved value, context)
      else
        match request.parameter with
        | some default => (.resolved default, context)
        | none => (.errorMsg (str "Default value expansion requires parameter"), context)
    | none =>
      match request.parameter with
      | some default => (.resolved default, context)
      | none => (.errorMsg (str "Default value expansion requires parameter"), context)
  | .assignDefault =>
    match context.get request.variable_name with
    | some value =>
      if !value.isEmpty || !request.check_unset then (.resolved value, context)
      else
        match request.parameter with
        | some default =>
          (.resolved default, context.set request.variable_name default)
        | none => (.errorMsg (str "Assign default expansion requires parameter"), context)
    | none =>
      match request.parameter with
      | some default =>
        (.resolved default, context.set request.variable_name default)
      | none => (.errorMsg (str "Assign default expansion requires parameter"), context)
  | .errorIfUnset =>
    match context.get request.variable_name with
    | some value =>
      if !value.isEmpty || !request.check_unset then (.resolved value, context)
      else
        match request.parameter with
        | some msg => (.errorMsg msg, context)
        | none =>
          (.errorMsg (request.variable_name ++ str ": parameter null or not set"), context)
    | none =>
      match request.parameter with
      | some msg => (.errorMsg msg, context)
      | none =>
        (.errorMsg (request.variable_name ++ str ": parameter null or not set"), context)
  | .alternativeValue =>
    match context.get request.variable_name with
    | some value =>
      if !value.isEmpty || !request.check_unset then
        match request.parameter with
        | some alternative => (.resolved alternative, context)
        | none => (.resolved [], context)
      else (.resolved [], context)
    | none => (.resolved [], context)

/-! ## shex-parser: string utilities -/

/-- Rust `char::is_ascii_alphabetic(c) || c == '_'`: a legal first character
of a variable name. -/
def is_name_start (c : Char) : Bool := c.isAlpha || c == '_'

/-- Rust `char::is_ascii_alphanumeric(c) || c == '_'`: a legal non-first
character of a variable name. -/
def is_name_char (c : Char) : Bool := c.isAlphanum || c == '_'

/-- `string_utils::is_valid_variable_name`: `[A-Za-z_][A-Za-z0-9_]*`. -/
def is_valid_variable_name : Str → Bool
  | [] => false
  | c :: rest => is_name_start c && rest.all is_name_char

/-- Rust `str::find(char)`: index of the first occurrence of `target`. -/
def findChar : Str → Char → Option Nat
  | [], _ => none
  | c :: rest, target =>
    if c == target then some 0 else (findChar rest target).map (· + 1)

/-- `string_utils::FindAny::find_any`: index of the first character that is
any of `targets`. -/
def findAnyChar : Str → List Char → Option Nat
  | [], _ => none
  | c :: rest, targets =>
    if targets.contains c then some 0 else (findAnyChar rest targets).map (· + 1)

/-- `string_utils::parse_simple_parameter_expansion`: `$name` with a valid
variable name (the text must be longer than the `$` alone). -/
def parse_simple_parameter_expansion (text : Str) : Option ExpansionRequest :=
  match text with
  | '$' :: var_name =>
    if !var_name.isEmpty && is_valid_variable_name var_name then
      some (.simple var_name)
    else none
  | _ => none

/-- The body of `string_utils::parse_parameter_expansion` operating on the
text between the braces (`inner` in the source): dispatch on the first `:`
or, failing that, the first bare operator character. -/
def parse_expansion_inner (inner : Str) : Option ExpansionRequest :=
  match findChar inner ':' with
  | some colon_pos =>
    let var_name := inner.take colon_pos
    let rest := inner.drop (colon_pos + 1)
    if !is_valid_variable_name var_name then none
    else
      match rest.head? with
      | some '-' =>
        some ⟨var_name, .defaultValue, some (rest.drop 1), true⟩
      | some '=' =>
        some ⟨var_name, .assignDefault, some (rest.drop 1), true⟩
      | some '?' =>
        let message := if rest.length > 1 then some (rest.drop 1) else none
        some ⟨var_name, .errorIfUnset, message, true⟩
      | some '+' =>
        some ⟨var_name, .alternativeValue, some (rest.drop 1), true⟩
      | _ => none
  | none =>
    match findAnyChar inner ['-', '=', '?', '+'] with
    | some operator_pos =>
      let var_name := inner.take operator_pos
      let operator := inner.getD operator_pos ' '
      let rest := inner.drop (operator_pos + 1)
      if !is_valid_variable_name var_name then none
      else
        match operator with
        | '-' => some ⟨var_name, .defaultValue, some rest, false⟩
        | '=' => some ⟨var_name, .assignDefault, some rest, false⟩
        | '?' =>
          let message := if rest.isEmpty then none else some rest
          some ⟨var_name, .errorIfUnset, message, false⟩
        | '+' => some ⟨var_name, .alternativeValue, some rest, false⟩
        | _ => none
    | none =>
      if is_valid_variable_name inner then some (.simple inner) else none

/-- `string_utils::parse_parameter_expansion`: `${...}` in all its
colon and non-colon operator forms. -/
def parse_parameter_expansion (text : Str) : Option ExpansionRequest :=
  match text with
  | '$' :: '{' :: tail =>
    match tail.getLast? with
    | some '}' => parse_expansion_inner tail.dropLast
    | _ => none
  | _ => none

/-! ## shex-ast: the command AST -/

/-- `shex_ast::RedirectionKind`. -/
inductive RedirectionKind where
  | input
  | output
  | append
  | hereDoc (delimiter : Str) (text : Str)
  | hereDocDash (delimiter : Str) (text : Str)
  | inputDup
  | outputDup
  | inputOutput
  | clobber
deriving DecidableEq, Repr

/-- `shex_ast::Redirection`. -/
structure Redirection where
  fd : Option Int
  kind : RedirectionKind
  target : Str
deriving DecidableEq, Repr

/-- `shex_ast::Spanned<T>`: an AST node together with its span. -/
structure Spanned (α : Type) where
  node : α
  span : Span
deriving DecidableEq, Repr

mutual
/-- `shex_ast::Command`: the tagged union of shell constructs.  Boxed child
nodes are plain children here; `If`/`While`/`Until`/`For`/`Case`/`Function`
are suffixed with `Cmd`/`Def` where the Rust variant name is reserved in
Lean, and `For`'s field `variable` is called `var_name`. -/
inductive Command where
  | simple (name : Str) (args : List Str) (assignments : List (Str × Str))
      (redirections : List Redirection)
  | pipeline (commands : List (Spanned Command)) (redirections : List Redirection)
  | assignment (assignments : List (Str × Str))
  | andIf (left : Spanned Command) (right : Spanned Command)
  | orIf (left : Spanned Command) (right : Spanned Command)
  | sequence (commands : List (Spanned Command))
  | background (command : Spanned Command)
  | ifCmd (condition : Spanned Command) (then_body : List (Spanned Command))
      (elif_clauses : List (Spanned Command × List (Spanned Command)))
      (else_body : Option (List (Spanned Command)))
  | whileCmd (condition : Spanned Command) (body : List (Spanned Command))
  | untilCmd (condition : Spanned Command) (body : List (Spanned Command))
  | forCmd (var_name : Str) (words : Option (List Str)) (body : List (Spanned Command))
  | caseCmd (word : Str) (arms : List CaseArm)
  | funcDef (name : Str) (body : Spanned Command) (redirections : List Redirection)
  | subshell (commands : List (Spanned Command))
  | braceGroup (commands : List (Spanned Command))

/-- `shex_ast::CaseArm`: patterns and the commands they guard. -/
inductive CaseArm where
  | mk (patterns : List Str) (commands : List (Spanned Command))
end

/-- The patterns of a case arm. -/
def CaseArm.patterns : CaseArm → List Str
  | .mk ps _ => ps

/-- The commands of a case arm. -/
def CaseArm.commands : CaseArm → List (Spanned Command)
  | .mk _ cs => cs

/-- `shex_ast::Program`. -/
structure Program where
  commands : List (Spanned Command)

/-! ## shex-interpreter -/

/-- `shex_interpreter::ExitStatus`. -/
structure ExitStatus where
  code : Int
  stdout : Str
  stderr : Str
deriving DecidableEq, Repr

/-- The fields of `shex_interpreter::Interpreter`: the variable context and
the last recorded exit code. -/
structure InterpState where
  variable_context : VariableContext
  exit_code : Int

/-- `Interpreter::new`. -/
def InterpState.new : InterpState := ⟨VariableContext.new, 0⟩

/-- What a spawned external process produced: its exit code (already run
through `status.code().unwrap_or(-1)`) and its captured streams. -/
structure SpawnOutput where
  code : Int
  stdout : Str
  stderr : Str
deriving DecidableEq, Repr

/-- The OS boundary: whether the three file-open operations used by
redirections succeed, and the outcome of spawning an external command
(`none` models a spawn failure, i.e. `cmd.output()` returning `Err`). -/
structure World where
  open_input : Str → Bool
  create_output : Str → Bool
  open_append : Str → Bool
  spawn : Str → List Str → List Redirection → Option SpawnOutput

/-- The outcome of one evaluator step: a status plus the updated interpreter
state, an error, or fuel exhaustion (the Rust code has no fuel; `fuelOut`
marks executions our finite unfolding cannot finish). -/
inductive ExecResult where
  | ok (status : ExitStatus) (st : InterpState)
  | errE (e : ShexError)
  | fuelOut

/-- The filename the interpreter passes for every runtime error. -/
def interpreterFilename : Str := str "<interpreter>"

/-- `Interpreter::execute_assignments`: set each binding in order. -/
def execute_assignments (st : InterpState) (assignments : List (Str × Str)) : InterpState :=
  { st with
    variable_context :=
      assignments.foldl (fun ctx nv => ctx.set nv.1 nv.2) st.variable_context }

/-- `Interpreter::expand_single_argument`: arguments that parse as a simple
or braced expansion are replaced by their resolved value; `Unset` becomes an
`UndefinedVariable` error and `Error` a Syntax error, both located through a
`SourceMap` built from the empty string with filename `<interpreter>`. -/
def expand_single_argument (ctx : VariableContext) (arg : Str) (span : Span) :
    Except ShexError (Str × VariableContext) :=
  match parse_simple_parameter_expansion arg with
  | some request =>
    match resolve_expansion ctx request with
    | (.resolved value, ctx') => .ok (value, ctx')
    | (.unset, _) =>
      .error (ShexError.undefined_variable request.variable_name span
        (SourceMap.new []) interpreterFilename)
    | (.errorMsg msg, _) =>
      .error (ShexError.mkSyn msg span (SourceMap.new []) interpreterFilename)
  | none =>
    match parse_parameter_expansion arg with
    | some request =>
      match resolve_expansion ctx request with
      | (.resolved value, ctx') => .ok (value, ctx')
      | (.unset, _) =>
        .error (ShexError.undefined_variable request.variable_name span
          (SourceMap.new []) interpreterFilename)
      | (.errorMsg msg, _) =>
        .error (ShexError.mkSyn msg span (SourceMap.new []) interpreterFilename)
    | none => .ok (arg, ctx)

/-- `Interpreter::expand_arguments`: expand each argument in order,
threading the context, stopping at the first failure. -/
def expand_arguments (ctx : VariableContext) (args : List Str) (span : Span) :
    Except ShexError (List Str × VariableContext) :=
  match args with
  | [] => .ok ([], ctx)
  | arg :: rest =>
    match expand_single_argument ctx arg span with
    | .error e => .error e
    | .ok (ea, ctx') =>
      match expand_arguments ctx' rest span with
      | .error e => .error e
      | .ok (eas, ctx'') => .ok (ea :: eas, ctx'')

/-- `Interpreter::apply_redirections`: `Input`/`Output`/`Append` try their
file operation and fail with a Syntax error at the dummy span; every other
kind is ignored. -/
def apply_redirections (w : World) : List Redirection → Except ShexError Unit
  | [] => .ok ()
  | r :: rest =>
    match r.kind with
    | .input =>
      if w.open_input r.target then apply_redirections w rest
      else .error (ShexError.mkSyn
        (str "Cannot open " ++ r.target ++ str " for input") Span.dummy
        (SourceMap.new []) interpreterFilename)
    | .output =>
      if w.create_output r.target then apply_redirections w rest
      else .error (ShexError.mkSyn
        (str "Cannot create " ++ r.target) Span.dummy
        (SourceMap.new []) interpreterFilename)
    | .append =>
      if w.open_append r.target then apply_redirections w rest
      else .error (ShexError.mkSyn
        (str "Cannot open " ++ r.target ++ str " for append") Span.dummy
        (SourceMap.new []) interpreterFilename)
    | _ => apply_redirections w rest

/-- `Interpreter::execute_simple_command`: apply prefix assignments, expand
arguments, dispatch the three builtins, otherwise apply redirections and
spawn; a failed spawn is `CommandNotFound` at the command's span. -/
def execute_simple_command (w : World) (st : InterpState) (name : Str)
    (args : List Str) (assignments : List (Str × Str))
    (redirections : List Redirection) (span : Span) : ExecResult :=
  let st1 := execute_assignments st assignments
  match expand_arguments st1.variable_context args span with
  | .error e => .errE e
  | .ok (expanded_args, ctx2) =>
    let st2 := { st1 with variable_context := ctx2 }
    if name = str "echo" then
      .ok ⟨0, List.intercalate (str " ") expanded_args ++ str "\n", []⟩ st2
    else if name = str "true" then .ok ⟨0, [], []⟩ st2
    else if name = str "false" then .ok ⟨1, [], []⟩ st2
    else
      match apply_redirections w redirections with
      | .error e => .errE e
      | .ok _ =>
        match w.spawn name expanded_args redirections with
        | some out => .ok ⟨out.code, out.stdout, out.stderr⟩ st2
        | none =>
          .errE (ShexError.command_not_found name span (SourceMap.new [])
            interpreterFilename)

/-- `Interpreter::pattern_matches`: exact string equality. -/
def pattern_matches (pattern word : Str) : Bool := pattern = word

/-- The arm scan of `Interpreter::execute_case`: first arm with a matching
pattern wins. -/
def find_matching_arm (arms : List CaseArm) (word : Str) :
    Option (List (Spanned Command)) :=
  match arms with
  | [] => none
  | arm :: rest =>
    if arm.patterns.any (fun p => pattern_matches p word) then some arm.commands
    else find_matching_arm rest word

/-- The loop shared by `execute_sequence`, `execute_pipeline` (which runs
stages sequentially) and `execute_command_list`: run every child in order,
returning the last child's status; an error aborts. -/
def run_command_list (exec : InterpState → Spanned Command → ExecResult) :
    InterpState → ExitStatus → List (Spanned Command) → ExecResult
  | st, last, [] => .ok last st
  | st, _, c :: rest =>
    match exec st c with
    | .ok r st' => run_command_list exec st' r rest
    | other => other

/-- The elif scan of `Interpreter::execute_if`: run each elif condition in
order, executing the first succeeding clause's body; otherwise the else
body, if any; otherwise succeed silently. -/
def run_elifs (exec : InterpState → Spanned Command → ExecResult)
    (runl : InterpState → List (Spanned Command) → ExecResult) :
    InterpState → List (Spanned Command × List (Spanned Command)) →
      Option (List (Spanned Command)) → ExecResult
  | st, [], else_body =>
    match else_body with
    | some cmds => runl st cmds
    | none => .ok ⟨0, [], []⟩ st
  | st, (cond, body) :: rest, else_body =>
    match exec st cond with
    | .ok r st' =>
      if r.code = 0 then runl st' body else run_elifs exec runl st' rest else_body
    | other => other

/-- The loop of `Interpreter::execute_while`, one fuel per iteration. -/
def run_while (exec : InterpState → Spanned Command → ExecResult)
    (runl : InterpState → List (Spanned Command) → ExecResult) :
    Nat → InterpState → Spanned Command → List (Spanned Command) →
      ExitStatus → ExecResult
  | 0, _, _, _, _ => .fuelOut
  | fuel + 1, st, cond, body, last =>
    match exec st cond with
    | .ok cr st' =>
      if cr.code ≠ 0 then .ok last st'
      else
        match runl st' body with
        | .ok br st'' => run_while exec runl fuel st'' cond body br
        | other => other
    | other => other

/-- The loop of `Interpreter::execute_until`: as `while` with the polarity
of the condition test inverted. -/
def run_until (exec : InterpState → Spanned Command → ExecResult)
    (runl : InterpState → List (Spanned Command) → ExecResult) :
    Nat → InterpState → Spanned Command → List (Spanned Command) →
      ExitStatus → ExecResult
  | 0, _, _, _, _ => .fuelOut
  | fuel + 1, st, cond, body, last =>
    match exec st cond with
    | .ok cr st' =>
      if cr.code = 0 then .ok last st'
      else
        match runl st' body with
        | .ok br st'' => run_until exec runl fuel st'' cond body br
        | other => other
    | other => other

/-- The loop of `Interpreter::execute_for`: bind the variable to each word
in order and run the body. -/
def run_for (runl : InterpState → List (Spanned Command) → ExecResult)
    (var_name : Str) : InterpState → List Str → List (Spanned Command) →
      ExitStatus → ExecResult
  | st, [], _, last => .ok last st
  | st, word :: rest, body, _ =>
    let st' := { st with variable_context := st.variable_context.set var_name word }
    match runl st' body with
    | .ok r st'' => run_for runl var_name st'' rest body r
    | other => other

/-- One dispatch step of `Interpreter::execute_command`, parametrised by the
evaluator `exec` used for child nodes. -/
def execute_step (w : World) (exec : InterpState → Spanned Command → ExecResult)
    (fuel : Nat) (st : InterpState) (cmd : Spanned Command) : ExecResult :=
  let runl := fun st' cmds => run_command_list exec st' ⟨0, [], []⟩ cmds
  match cmd.node with
  | .simple name args assignments redirections =>
    execute_simple_command w st name args assignments redirections cmd.span
  | .pipeline commands _redirections => runl st commands
  | .assignment assignments => .ok ⟨0, [], []⟩ (execute_assignments st assignments)
  | .andIf left right =>
    match exec st left with
    | .ok lr st' => if lr.code = 0 then exec st' right else .ok lr st'
    | other => other
  | .orIf left right =>
    match exec st left with
    | .ok lr st' => if lr.code = 0 then .ok lr st' else exec st' right
    | other => other
  | .sequence commands => runl st commands
  | .background command =>
    match exec st command with
    | .ok _ st' => .ok ⟨0, [], []⟩ st'
    | other => other
  | .ifCmd condition then_body elif_clauses else_body =>
    match exec st condition with
    | .ok cr st' =>
      if cr.code = 0 then runl st' then_body
      else run_elifs exec runl st' elif_clauses else_body
    | other => other
  | .whileCmd condition body => run_while exec runl fuel st condition body ⟨0, [], []⟩
  | .untilCmd condition body => run_until exec runl fuel st condition body ⟨0, [], []⟩
  | .forCmd var_name words body =>
    let word_list := words.getD []
    run_for runl var_name st word_list body ⟨0, [], []⟩
  | .caseCmd word arms =>
    match expand_single_argument st.variable_context word Span.dummy with
    | .error e => .errE e
    | .ok (expanded_word, ctx') =>
      let st' := { st with variable_context := ctx' }
      match find_matching_arm arms expanded_word with
      | some arm_commands => runl st' arm_commands
      | none => .ok ⟨0, [], []⟩ st'
  | .funcDef _ _ _ => .ok ⟨0, [], []⟩ st
  | .subshell commands => runl st commands
  | .braceGroup commands => runl st commands

/-- `Interpreter::execute_command`, made total with fuel: each recursion
into a child node costs one unit.  Defined through `Nat.rec` so that
applications at literal fuel reduce definitionally. -/
def execute_command (w : World) (fuel : Nat) :
    InterpState → Spanned Command → ExecResult :=
  Nat.rec (fun _ _ => ExecResult.fuelOut)
    (fun fuel' exec => execute_step w exec fuel') fuel

/-- Unfolding `execute_command` at successor fuel. -/
theorem execute_command_succ (w : World) (fuel : Nat) :
    execute_command w (fuel + 1) = execute_step w (execute_command w fuel) fuel := rfl

/-- The loop of `Interpreter::execute`: run top-level commands in order,
breaking at the first non-zero exit code; on completion record the last
code in the interpreter and rebuild the final `ExitStatus` from the
last-seen fields. -/
def execute_program_loop (w : World) (fuel : Nat) :
    InterpState → ExitStatus → List (Spanned Command) → ExecResult
  | st, last, [] =>
    .ok ⟨last.code, last.stdout, last.stderr⟩ { st with exit_code := last.code }
  | st, _, c :: rest =>
    match execute_command w fuel st c with
    | .ok r st' =>
      if r.code ≠ 0 then
        .ok ⟨r.code, r.stdout, r.stderr⟩ { st' with exit_code := r.code }
      else execute_program_loop w fuel st' r rest
    | other => other

/-- `Interpreter::execute`. -/
def execute (w : World) (fuel : Nat) (st : InterpState) (program : Program) :
    ExecResult :=
  execute_program_loop w fuel st ⟨0, [], []⟩ program.commands

/-- A world in which no file opens fail and no external command exists. -/
def noSpawnWorld : World :=
  ⟨fun _ => true, fun _ => true, fun _ => true, fun _ _ _ => none⟩

/-! ## Lemmas: variable names, search, and expansion parsing -/

theorem is_name_char_of_start (c : Char) (h : is_name_start c = true) :
    is_name_char c = true := by
  unfold is_name_start at h
  unfold is_name_char
  rcases Bool.or_eq_true_iff.mp h with h' | h'
  · have halnum : c.isAlphanum = (c.isAlpha || c.isDigit) := rfl
    rw [halnum, h', Bool.true_or, Bool.true_or]
  · rw [h', Bool.or_true]

theorem valid_name_chars (v : Str) (hv : is_valid_variable_name v = true) :
    ∀ c ∈ v, is_name_char c = true := by
  match v with
  | [] => exact absurd hv (by decide)
  | c :: rest =>
    intro x hx
    unfold is_valid_variable_name at hv
    rcases Bool.and_eq_true_iff.mp hv with ⟨h1, h2⟩
    rcases List.mem_cons.mp hx with rfl | hx'
    · exact is_name_char_of_start x h1
    · exact List.all_eq_true.mp h2 x hx'

theorem name_char_ne (c x : Char) (h : is_name_char c = true)
    (hx : is_name_char x = false) : c ≠ x := by
  intro heq
  rw [heq, hx] at h
  cases h

theorem valid_name_no_char (v : Str) (hv : is_valid_variable_name v = true)
    (x : Char) (hx : is_name_char x = false) : ∀ c ∈ v, c ≠ x :=
  fun c hc => name_char_ne c x (valid_name_chars v hv c hc) hx

theorem name_char_no_op (c : Char) (h : is_name_char c = true) :
    (['-', '=', '?', '+'].contains c) = false := by
  have h1 : c ≠ '-' := name_char_ne c '-' h (by decide)
  have h2 : c ≠ '=' := name_char_ne c '=' h (by decide)
  have h3 : c ≠ '?' := name_char_ne c '?' h (by decide)
  have h4 : c ≠ '+' := name_char_ne c '+' h (by decide)
  have b1 : (c == '-') = false := beq_eq_false_iff_ne.mpr h1
  have b2 : (c == '=') = false := beq_eq_false_iff_ne.mpr h2
  have b3 : (c == '?') = false := beq_eq_false_iff_ne.mpr h3
  have b4 : (c == '+') = false := beq_eq_false_iff_ne.mpr h4
  simp [List.contains, List.elem, b1, b2, b3, b4]

theorem findChar_eq_none (s : Str) (t : Char) (h : ∀ c ∈ s, c ≠ t) :
    findChar s t = none := by
  induction s with
  | nil => rfl
  | cons c rest ih =>
    have hc : (c == t) = false := beq_eq_false_iff_ne.mpr (h c (List.mem_cons_self c rest))
    have ih' := ih (fun x hx => h x (List.mem_cons_of_mem c hx))
    simp [findChar, hc, ih']

theorem findChar_append (s rest : Str) (t : Char) (h : ∀ c ∈ s, c ≠ t) :
    findChar (s ++ t :: rest) t = some s.length := by
  induction s with
  | nil => simp [findChar]
  | cons c s' ih =>
    have hc : (c == t) = false := beq_eq_false_iff_ne.mpr (h c (List.mem_cons_self c s'))
    have ih' := ih (fun x hx => h x (List.mem_cons_of_mem c hx))
    simp [findChar, hc, ih']

theorem findAnyChar_eq_none (s : Str) (ts : List Char)
    (h : ∀ c ∈ s, ts.contains c = false) : findAnyChar s ts = none := by
  induction s with
  | nil => rfl
  | cons c rest ih =>
    have ih' := ih (fun x hx => h x (List.mem_cons_of_mem c hx))
    have hc : c ∉ ts := by simpa using h c (List.mem_cons_self c rest)
    simp [findAnyChar, hc, ih']

theorem findAnyChar_append (s rest : Str) (ts : List Char) (op : Char)
    (h : ∀ c ∈ s, ts.contains c = false) (hop : ts.contains op = true) :
    findAnyChar (s ++ op :: rest) ts = some s.length := by
  have hop' : op ∈ ts := by simpa using hop
  induction s with
  | nil => simp [findAnyChar, hop']
  | cons c s' ih =>
    have ih' := ih (fun x hx => h x (List.mem_cons_of_mem c hx))
    have hc : c ∉ ts := by simpa using h c (List.mem_cons_self c s')
    simp [findAnyChar, hc, ih']

theorem valid_name_no_colon (v : Str) (hv : is_valid_variable_name v = true) :
    ∀ c ∈ v, c ≠ ':' :=
  valid_name_no_char v hv ':' (by decide)

/-- A valid name is non-empty. -/
theorem valid_name_ne_nil (v : Str) (hv : is_valid_variable_name v = true) :
    v ≠ [] := by
  intro h
  subst h
  exact absurd hv (by decide)

theorem parse_simple_dollar (v : Str) (hv : is_valid_variable_name v = true) :
    parse_simple_parameter_expansion ('$' :: v) = some (.simple v) := by
  have hne : v.isEmpty = false := by
    cases v with
    | nil => exact absurd hv (by decide)
    | cons c rest => rfl
  simp [parse_simple_parameter_expansion, hne, hv]

theorem parse_simple_dollar_brace (rest : Str) :
    parse_simple_parameter_expansion ('$' :: '{' :: rest) = none := by
  simp [parse_simple_parameter_expansion, is_valid_variable_name, is_name_start]

/-- The inner slices of a braced expansion `${m}`: the parser sees exactly
`m` between the braces. -/
theorem drop_inner (v : Str) (op : Char) (d : Str) :
    (v ++ op :: d).drop (v.length + 1) = d := by
  have h1 : (v ++ op :: d).drop v.length = op :: d := List.drop_left v (op :: d)
  have h2 : (v ++ op :: d).drop (v.length + 1) = ((v ++ op :: d).drop v.length).drop 1 := by
    rw [List.drop_drop]
  rw [h2, h1]
  rfl

theorem parse_braced_eq (m : Str) :
    parse_parameter_expansion ('$' :: '{' :: (m ++ ['}'])) = parse_expansion_inner m := by
  show (match (m ++ ['}']).getLast? with
        | some '}' => parse_expansion_inner (m ++ ['}']).dropLast
        | _ => none) = parse_expansion_inner m
  rw [List.getLast?_concat, List.dropLast_concat]
  rfl

theorem parse_braced_plain (v : Str) (hv : is_valid_variable_name v = true) :
    parse_parameter_expansion ('$' :: '{' :: (v ++ ['}'])) =
      some (.simple v) := by
  have hcolon : findChar v ':' = none := findChar_eq_none v ':' (valid_name_no_colon v hv)
  have hany : findAnyChar v ['-', '=', '?', '+'] = none :=
    findAnyChar_eq_none v _ (fun c hc => name_char_no_op c (valid_name_chars v hv c hc))
  rw [parse_braced_eq]
  simp only [parse_expansion_inner, hcolon, hany, hv]
  rfl

theorem parse_braced_colon_dash (v d : Str) (hv : is_valid_variable_name v = true) :
    parse_parameter_expansion ('$' :: '{' :: ((v ++ ':' :: '-' :: d) ++ ['}'])) =
      some ⟨v, .defaultValue, some d, true⟩ := by
  have hfind : findChar (v ++ ':' :: '-' :: d) ':' = some v.length :=
    findChar_append v ('-' :: d) ':' (valid_name_no_colon v hv)
  have htake : (v ++ ':' :: '-' :: d).take v.length = v := List.take_left v _
  have hdrop : (v ++ ':' :: '-' :: d).drop (v.length + 1) = '-' :: d :=
    drop_inner v ':' ('-' :: d)
  rw [parse_braced_eq]
  simp only [parse_expansion_inner, hfind, htake, hdrop, hv, Bool.not_true,
    List.head?_cons, List.drop_succ_cons, List.drop_zero]
  rfl

theorem parse_braced_colon_assign (v d : Str) (hv : is_valid_variable_name v = true) :
    parse_parameter_expansion ('$' :: '{' :: ((v ++ ':' :: '=' :: d) ++ ['}'])) =
      some ⟨v, .assignDefault, some d, true⟩ := by
  have hfind : findChar (v ++ ':' :: '=' :: d) ':' = some v.length :=
    findChar_append v ('=' :: d) ':' (valid_name_no_colon v hv)
  have htake : (v ++ ':' :: '=' :: d).take v.length = v := List.take_left v _
  have hdrop : (v ++ ':' :: '=' :: d).drop (v.length + 1) = '=' :: d :=
    drop_inner v ':' ('=' :: d)
  rw [parse_braced_eq]
  simp only [parse_expansion_inner, hfind, htake, hdrop, hv, Bool.not_true,
    List.head?_cons, List.drop_succ_cons, List.drop_zero]
  rfl

theorem parse_braced_colon_query_empty (v : Str) (hv : is_valid_variable_name v = true) :
    parse_parameter_expansion ('$' :: '{' :: ((v ++ [':', '?']) ++ ['}'])) =
      some ⟨v, .errorIfUnset, none, true⟩ := by
  have hfind : findChar (v ++ ':' :: '?' :: []) ':' = some v.length :=
    findChar_append v ('?' :: []) ':' (valid_name_no_colon v hv)
  have htake : (v ++ ':' :: '?' :: []).take v.length = v := List.take_left v _
  have hdrop : (v ++ ':' :: '?' :: []).drop (v.length + 1) = '?' :: [] :=
    drop_inner v ':' ('?' :: [])
  rw [parse_braced_eq]
  simp only [parse_expansion_inner, hfind, htake, hdrop, hv, Bool.not_true,
    List.head?_cons, List.drop_succ_cons, List.drop_zero]
  rfl

theorem parse_braced_colon_plus (v a : Str) (hv : is_valid_variable_name v = true) :
    parse_parameter_expansion ('$' :: '{' :: ((v ++ ':' :: '+' :: a) ++ ['}'])) =
      some ⟨v, .alternativeValue, some a, true⟩ := by
  have hfind : findChar (v ++ ':' :: '+' :: a) ':' = some v.length :=
    findChar_append v ('+' :: a) ':' (valid_name_no_colon v hv)
  have htake : (v ++ ':' :: '+' :: a).take v.length = v := List.take_left v _
  have hdrop : (v ++ ':' :: '+' :: a).drop (v.length + 1) = '+' :: a :=
    drop_inner v ':' ('+' :: a)
  rw [parse_braced_eq]
  simp only [parse_expansion_inner, hfind, htake, hdrop, hv, Bool.not_true,
    List.head?_cons, List.drop_succ_cons, List.drop_zero]
  rfl

theorem no_colon_in_op_tail (v : Str) (hv : is_valid_variable_name v = true)
    (op : Char) (hop : op ≠ ':') (d : Str) (hd : ':' ∉ d) :
    findChar (v ++ op :: d) ':' = none := by
  apply findChar_eq_none
  intro c hc
  rcases List.mem_append.mp hc with h1 | h2
  · exact valid_name_no_colon v hv c h1
  · rcases List.mem_cons.mp h2 with rfl | h3
    · exact hop
    · intro heq
      exact hd (heq ▸ h3)

theorem getD_op (v : Str) (op : Char) (d : Str) :
    (v ++ op :: d).getD v.length ' ' = op := by
  simp [List.getD, List.getElem?_append_right (Nat.le_refl v.length)]

theorem parse_braced_bare_dash (v d : Str) (hv : is_valid_variable_name v = true)
    (hd : ':' ∉ d) :
    parse_parameter_expansion ('$' :: '{' :: ((v ++ '-' :: d) ++ ['}'])) =
      some ⟨v, .defaultValue, some d, false⟩ := by
  have hcolon := no_colon_in_op_tail v hv '-' (by decide) d hd
  have hany : findAnyChar (v ++ '-' :: d) ['-', '=', '?', '+'] = some v.length :=
    findAnyChar_append v d _ '-'
      (fun c hc => name_char_no_op c (valid_name_chars v hv c hc)) (by decide)
  have htake : (v ++ '-' :: d).take v.length = v := List.take_left v _
  have hgetD : (v ++ '-' :: d).getD v.length ' ' = '-' := getD_op v '-' d
  have hdrop : (v ++ '-' :: d).drop (v.length + 1) = d := drop_inner v '-' d
  rw [parse_braced_eq]
  simp only [parse_expansion_inner, hcolon, hany, htake, hgetD, hdrop, hv, Bool.not_true]
  rfl

theorem parse_braced_bare_assign (v d : Str) (hv : is_valid_variable_name v = true)
    (hd : ':' ∉ d) :
    parse_parameter_expansion ('$' :: '{' :: ((v ++ '=' :: d) ++ ['}'])) =
      some ⟨v, .assignDefault, some d, false⟩ := by
  have hcolon := no_colon_in_op_tail v hv '=' (by decide) d hd
  have hany : findAnyChar (v ++ '=' :: d) ['-', '=', '?', '+'] = some v.length :=
    findAnyChar_append v d _ '='
      (fun c hc => name_char_no_op c (valid_name_chars v hv c hc)) (by decide)
  have htake : (v ++ '=' :: d).take v.length = v := List.take_left v _
  have hgetD : (v ++ '=' :: d).getD v.length ' ' = '=' := getD_op v '=' d
  have hdrop : (v ++ '=' :: d).drop (v.length + 1) = d := drop_inner v '=' d
  rw [parse_braced_eq]
  simp only [parse_expansion_inner, hcolon, hany, htake, hgetD, hdrop, hv, Bool.not_true]
  rfl

/-! ## Lemmas: contexts and positions -/

theorem getVar_setVar_self (vars : List (Str × Str)) (name value : Str) :
    getVar (setVar vars name value) name = some value := by
  induction vars with
  | nil => simp [setVar, getVar]
  | cons kv rest ih =>
    by_cases h : kv.1 = name
    · simp [setVar, getVar, h]
    · simp [setVar, getVar, h, ih]

/-- After `set`, `get` of the same name sees the new value. -/
theorem get_set_self (ctx : VariableContext) (name value : Str) :
    (ctx.set name value).get name = some value := by
  cases ctx with
  | mk vars parent =>
    have hset : (VariableContext.mk vars parent).set name value =
        .mk (setVar vars name value) parent := rfl
    rw [hset]
    cases parent with
    | none => rw [VariableContext.get, getVar_setVar_self]
    | some p => rw [VariableContext.get, getVar_setVar_self]

/-- Resolving positions against `SourceMap::new("")` always yields line 1
and column `offset + 1`. -/
theorem position_empty (off : Nat) :
    (SourceMap.new []).position off = ⟨1, off + 1⟩ := by
  by_cases h : off = 0
  · subst h
    rfl
  · have h0 : (0 = off) = False := by simp [Ne.symm h]
    simp [SourceMap.new, computeLineStarts, SourceMap.position, binarySearch,
      binarySearchGo, h0]

/-- `ShexError::undefined_variable` against the empty source map. -/
theorem undefined_variable_empty (v : Str) (span : Span) :
    ShexError.undefined_variable v span (SourceMap.new []) interpreterFilename =
      .undefinedVariable v span interpreterFilename 1 (span.start + 1) := by
  unfold ShexError.undefined_variable
  rw [position_empty]

/-- `ShexError::syntax` against the empty source map. -/
theorem mkSyn_empty (m : Str) (span : Span) :
    ShexError.mkSyn m span (SourceMap.new []) interpreterFilename =
      .synError m span interpreterFilename 1 (span.start + 1) := by
  unfold ShexError.mkSyn
  rw [position_empty]

/-- `ShexError::command_not_found` against the empty source map. -/
theorem command_not_found_empty (c : Str) (span : Span) :
    ShexError.command_not_found c span (SourceMap.new []) interpreterFilename =
      .commandNotFound c span interpreterFilename 1 (span.start + 1) := by
  unfold ShexError.command_not_found
  rw [position_empty]

/-! ## Claim theorems -/

theorem wire_tail_syn (m : Str) :
    str ": ERR_" ++ (str "SYNTAX" ++ (str ": " ++ m)) = str ": ERR_SYNTAX: " ++ m := by
  rw [← List.append_assoc, ← List.append_assoc]
  have h : str ": ERR_" ++ str "SYNTAX" ++ str ": " = str ": ERR_SYNTAX: " := by decide
  rw [h]

theorem wire_tail_undef (m : Str) :
    str ": ERR_" ++ (str "UNDEF_VAR" ++ (str ": " ++ m)) = str ": ERR_UNDEF_VAR: " ++ m := by
  rw [← List.append_assoc, ← List.append_assoc]
  have h : str ": ERR_" ++ str "UNDEF_VAR" ++ str ": " = str ": ERR_UNDEF_VAR: " := by decide
  rw [h]

theorem wire_tail_cnf (m : Str) :
    str ": ERR_" ++ (str "COMMAND_NOT_FOUND" ++ (str ": " ++ m)) =
      str ": ERR_COMMAND_NOT_FOUND: " ++ m := by
  rw [← List.append_assoc, ← List.append_assoc]
  have h : str ": ERR_" ++ str "COMMAND_NOT_FOUND" ++ str ": " =
      str ": ERR_COMMAND_NOT_FOUND: " := by decide
  rw [h]

/-- Claim C9: every `ShexError` renders exactly as
`Shex:{filename}:{line}:{column}: ERR_{KIND}: {detail}`, with `KIND` equal
to `SYNTAX` for Syntax errors, `UNDEF_VAR` for UndefinedVariable errors and
`COMMAND_NOT_FOUND` for CommandNotFound errors. -/
theorem shex_error_renders_wire_format (e : ShexError) :
    e.render = wireFormat e.filenameOf (natStr e.lineOf) (natStr e.columnOf)
      e.kindOf e.detailOf := by
  cases e with
  | synError m sp f l c =>
    simp only [ShexError.render, wireFormat, ShexError.filenameOf, ShexError.lineOf,
      ShexError.columnOf, ShexError.kindOf, ShexError.detailOf, List.append_assoc]
    rw [wire_tail_syn]
  | undefinedVariable v sp f l c =>
    simp only [ShexError.render, wireFormat, ShexError.filenameOf, ShexError.lineOf,
      ShexError.columnOf, ShexError.kindOf, ShexError.detailOf, List.append_assoc]
    rw [wire_tail_undef]
  | commandNotFound cmd sp f l c =>
    simp only [ShexError.render, wireFormat, ShexError.filenameOf, ShexError.lineOf,
      ShexError.columnOf, ShexError.kindOf, ShexError.detailOf, List.append_assoc]
    rw [wire_tail_cnf]

/-- Claim C7: when the left operand of `AndIf` exits non-zero the right operand is
never evaluated and the left status/state come back unchanged, and
symmetrically for `OrIf` with a zero exit code (the result is the same for
every possible right operand). -/
theorem andif_orif_short_circuit (w : World) (fuel : Nat) (st : InterpState)
    (left : Spanned Command) (res : ExitStatus) (st' : InterpState)
    (h : execute_command w fuel st left = .ok res st') :
    (res.code ≠ 0 → ∀ right sp,
       execute_command w (fuel + 1) st ⟨.andIf left right, sp⟩ = .ok res st') ∧
    (res.code = 0 → ∀ right sp,
       execute_command w (fuel + 1) st ⟨.orIf left right, sp⟩ = .ok res st') := by
  constructor
  · intro hne right sp
    rw [execute_command_succ]
    simp only [execute_step, h]
    rw [if_neg hne]
  · intro hz right sp
    rw [execute_command_succ]
    simp only [execute_step, h]
    rw [if_pos hz]

/-- `false` as a simple command. -/
def falseCmd : Spanned Command := ⟨.simple (str "false") [] [] [], Span.dummy⟩

/-- `true` as a simple command. -/
def trueCmd : Spanned Command := ⟨.simple (str "true") [] [] [], Span.dummy⟩

/-- `echo hi` as a simple command. -/
def echoHi : Spanned Command := ⟨.simple (str "echo") [str "hi"] [] [], Span.dummy⟩

theorem andif_orif_short_circuit_witness :
    execute_command noSpawnWorld 2 InterpState.new ⟨.andIf falseCmd echoHi, Span.dummy⟩ =
      .ok ⟨1, [], []⟩ InterpState.new ∧
    execute_command noSpawnWorld 2 InterpState.new ⟨.orIf trueCmd echoHi, Span.dummy⟩ =
      .ok ⟨0, [], []⟩ InterpState.new := by
  constructor
  · exact (andif_orif_short_circuit noSpawnWorld 1 InterpState.new falseCmd
      ⟨1, [], []⟩ InterpState.new rfl).1 (by decide) echoHi Span.dummy
  · exact (andif_orif_short_circuit noSpawnWorld 1 InterpState.new trueCmd
      ⟨0, [], []⟩ InterpState.new rfl).2 rfl echoHi Span.dummy

/-- Claim C8: a three-command `Sequence` executes all children in order whatever
their exit codes (the hypotheses chain the three executions through the
successive states) and returns the third child's status; an error from the
first child aborts the whole sequence. -/
theorem sequence_runs_all_returns_last (w : World) (fuel : Nat) (st : InterpState)
    (a b c : Spanned Command) (sp : Span) :
    (∀ ra rb rc st1 st2 st3,
       execute_command w fuel st a = .ok ra st1 →
       execute_command w fuel st1 b = .ok rb st2 →
       execute_command w fuel st2 c = .ok rc st3 →
       execute_command w (fuel + 1) st ⟨.sequence [a, b, c], sp⟩ = .ok rc st3) ∧
    (∀ e, execute_command w fuel st a = .errE e →
       execute_command w (fuel + 1) st ⟨.sequence [a, b, c], sp⟩ = .errE e) := by
  constructor
  · intro ra rb rc st1 st2 st3 ha hb hc
    rw [execute_command_succ]
    simp only [execute_step, run_command_list, ha, hb, hc]
  · intro e ha
    rw [execute_command_succ]
    simp only [execute_step, run_command_list, ha]

theorem sequence_runs_all_returns_last_witness :
    execute_command noSpawnWorld 2 InterpState.new
      ⟨.sequence [falseCmd, falseCmd, echoHi], Span.dummy⟩ =
      .ok ⟨0, str "hi\n", []⟩ InterpState.new :=
  (sequence_runs_all_returns_last noSpawnWorld 1 InterpState.new falseCmd falseCmd
    echoHi Span.dummy).1 ⟨1, [], []⟩ ⟨1, [], []⟩ ⟨0, str "hi\n", []⟩
    InterpState.new InterpState.new InterpState.new rfl rfl rfl

/-- Claim C3: top-level execution runs commands in order: a command that exits
non-zero stops the program and its status is surfaced (whatever commands
remain), a `ShexError` is propagated immediately (whatever commands remain),
and a zero exit code continues with the remaining commands. -/
theorem execute_stops_at_failure (w : World) (fuel : Nat) (st : InterpState)
    (c : Spanned Command) (rest : List (Spanned Command)) :
    (∀ r st', execute_command w fuel st c = .ok r st' →
       ((r.code ≠ 0 →
           execute w fuel st ⟨c :: rest⟩ =
             .ok ⟨r.code, r.stdout, r.stderr⟩ { st' with exit_code := r.code }) ∧
        (r.code = 0 →
           execute w fuel st ⟨c :: rest⟩ = execute_program_loop w fuel st' r rest))) ∧
    (∀ e, execute_command w fuel st c = .errE e →
       execute w fuel st ⟨c :: rest⟩ = .errE e) := by
  constructor
  · intro r st' h
    constructor
    · intro hne
      simp only [execute, execute_program_loop, h]
      rw [if_pos hne]
    · intro hz
      simp only [execute, execute_program_loop, h]
      rw [if_neg (by simp [hz])]
  · intro e h
    simp only [execute, execute_program_loop, h]

theorem execute_stops_at_failure_witness :
    execute noSpawnWorld 1 InterpState.new ⟨[falseCmd, echoHi]⟩ =
      .ok ⟨1, [], []⟩ ⟨VariableContext.new, 1⟩ :=
  ((execute_stops_at_failure noSpawnWorld 1 InterpState.new falseCmd [echoHi]).1
    ⟨1, [], []⟩ InterpState.new rfl).1 (by decide)

/-- `x=1` as a standalone assignment command. -/
def assignX : Spanned Command := ⟨.assignment [(str "x", str "1")], Span.dummy⟩

/-- The context holding only `x = 1`. -/
def leakedContext : VariableContext := .mk [(str "x", str "1")] none

/-- Claim C1 (failing input): executing `Subshell{[x=1]}` runs the body in the
*current* scope, so the assignment is visible via `get` in the enclosing
state afterwards — exactly as `BraceGroup{[x=1]}` — contradicting the claim
that subshell mutations are invisible to the enclosing scope. -/
theorem subshell_assignment_leaks :
    execute_command noSpawnWorld 2 InterpState.new ⟨.subshell [assignX], Span.dummy⟩ =
      .ok ⟨0, [], []⟩ ⟨leakedContext, 0⟩ ∧
    leakedContext.get (str "x") = some (str "1") ∧
    execute_command noSpawnWorld 2 InterpState.new ⟨.braceGroup [assignX], Span.dummy⟩ =
      .ok ⟨0, [], []⟩ ⟨leakedContext, 0⟩ :=
  ⟨rfl, rfl, rfl⟩

/-- Claim C5: resolving `${X:=abc}` on an unset `X` parses to an AssignDefault
request, sets `X` to `abc` and yields `abc`; resolving it again yields the
same `abc` and returns the context completely unchanged. -/
theorem assign_default_idempotent (ctx : VariableContext)
    (h : ctx.get (str "X") = none) :
    parse_parameter_expansion (str "${X:=abc}") =
      some ⟨str "X", .assignDefault, some (str "abc"), true⟩ ∧
    resolve_expansion ctx ⟨str "X", .assignDefault, some (str "abc"), true⟩ =
      (.resolved (str "abc"), ctx.set (str "X") (str "abc")) ∧
    resolve_expansion (ctx.set (str "X") (str "abc"))
        ⟨str "X", .assignDefault, some (str "abc"), true⟩ =
      (.resolved (str "abc"), ctx.set (str "X") (str "abc")) := by
  refine ⟨by decide, ?_, ?_⟩
  · simp only [resolve_expansion, h]
  · have hg := get_set_self ctx (str "X") (str "abc")
    simp only [resolve_expansion, hg]
    rfl

theorem assign_default_idempotent_witness :
    resolve_expansion VariableContext.new
        ⟨str "X", .assignDefault, some (str "abc"), true⟩ =
      (.resolved (str "abc"), VariableContext.new.set (str "X") (str "abc")) ∧
    resolve_expansion (VariableContext.new.set (str "X") (str "abc"))
        ⟨str "X", .assignDefault, some (str "abc"), true⟩ =
      (.resolved (str "abc"), VariableContext.new.set (str "X") (str "abc")) :=
  ⟨(assign_default_idempotent VariableContext.new rfl).2.1,
   (assign_default_idempotent VariableContext.new rfl).2.2⟩

/-- The unset-or-null triggering condition of the default/assign/error
expansion modes. -/
def triggering (ctx : VariableContext) (request : ExpansionRequest) : Bool :=
  match ctx.get request.variable_name with
  | none => true
  | some value => value.isEmpty && request.check_unset

/-- Claim C6 (counterexample): an `AssignDefault` request carrying no parameter
triggers (the variable is unset) and yet resolution leaves the context
unmodified, returning an error instead — refuting "the modification happens
exactly when the triggering condition holds" as stated. -/
theorem assign_default_no_parameter_no_mutation :
    triggering VariableContext.new ⟨str "v", .assignDefault, none, true⟩ = true ∧
    (resolve_expansion VariableContext.new
        ⟨str "v", .assignDefault, none, true⟩).2 = VariableContext.new ∧
    (resolve_expansion VariableContext.new
        ⟨str "v", .assignDefault, none, true⟩).1 =
      .errorMsg (str "Assign default expansion requires parameter") :=
  ⟨rfl, rfl, rfl⟩

/-- Claim C6 (amended): every mode other than `AssignDefault` resolves without
modifying the context; under `AssignDefault` the only possible modification
is setting the request's variable to its parameter, and — when a parameter
is present — it happens exactly when the triggering condition holds; with
no parameter the context is returned unchanged. -/
theorem resolve_expansion_frame (ctx : VariableContext) (request : ExpansionRequest) :
    (request.mode ≠ .assignDefault → (resolve_expansion ctx request).2 = ctx) ∧
    (request.mode = .assignDefault →
       ((triggering ctx request = false → (resolve_expansion ctx request).2 = ctx) ∧
        (∀ p, request.parameter = some p → triggering ctx request = true →
           (resolve_expansion ctx request).2 = ctx.set request.variable_name p) ∧
        (request.parameter = none → (resolve_expansion ctx request).2 = ctx))) := by
  rcases request with ⟨name, mode, param, cu⟩
  cases mode with
  | assignDefault =>
    refine ⟨fun h => absurd rfl h, fun _ => ⟨?_, ?_, ?_⟩⟩
    · intro htrig
      cases hg : ctx.get name with
      | none => simp [triggering, hg] at htrig
      | some value =>
        simp only [triggering, hg] at htrig
        have hcond : (!value.isEmpty || !cu) = true := by
          rw [← Bool.not_and, htrig]
          rfl
        simp only [resolve_expansion, hg, hcond]
        rfl
    · intro p hp htrig
      subst hp
      cases hg : ctx.get name with
      | none => simp only [resolve_expansion, hg]
      | some value =>
        simp only [triggering, hg] at htrig
        have h1 : value.isEmpty = true := (Bool.and_eq_true_iff.mp htrig).1
        have h2 : cu = true := (Bool.and_eq_true_iff.mp htrig).2
        simp only [resolve_expansion, hg, h1, h2, Bool.not_true, Bool.or_self]
        rfl
    · intro hp
      subst hp
      cases hg : ctx.get name with
      | none => simp only [resolve_expansion, hg]
      | some value =>
        simp only [resolve_expansion, hg]
        split
        · rfl
        · rfl
  | normal =>
    refine ⟨fun _ => ?_, fun h => by simp at h⟩
    cases hg : ctx.get name with
    | none => simp only [resolve_expansion, hg]
    | some value => simp only [resolve_expansion, hg]
  | defaultValue =>
    refine ⟨fun _ => ?_, fun h => by simp at h⟩
    cases hg : ctx.get name with
    | none =>
      simp only [resolve_expansion, hg]
      cases param <;> rfl
    | some value =>
      simp only [resolve_expansion, hg]
      split
      · rfl
      · cases param <;> rfl
  | errorIfUnset =>
    refine ⟨fun _ => ?_, fun h => by simp at h⟩
    cases hg : ctx.get name with
    | none =>
      simp only [resolve_expansion, hg]
      cases param <;> rfl
    | some value =>
      simp only [resolve_expansion, hg]
      split
      · rfl
      · cases param <;> rfl
  | alternativeValue =>
    refine ⟨fun _ => ?_, fun h => by simp at h⟩
    cases hg : ctx.get name with
    | none => simp only [resolve_expansion, hg]
    | some value =>
      simp only [resolve_expansion, hg]
      split
      · cases param <;> rfl
      · rfl

theorem resolve_expansion_frame_witness :
    (resolve_expansion VariableContext.new (ExpansionRequest.simple (str "y"))).2 =
      VariableContext.new ∧
    (resolve_expansion VariableContext.new
        ⟨str "y", .assignDefault, some (str "d"), true⟩).2 =
      VariableContext.new.set (str "y") (str "d") :=
  ⟨(resolve_expansion_frame VariableContext.new
      (ExpansionRequest.simple (str "y"))).1 (by decide),
   ((resolve_expansion_frame VariableContext.new
      ⟨str "y", .assignDefault, some (str "d"), true⟩).2 rfl).2.1 (str "d") rfl rfl⟩

/-- Claim C10: every error `expand_single_argument` produces, and the
`CommandNotFound` produced by a failed spawn, is resolved against
`SourceMap::new("")` with filename `<interpreter>`, so it reports filename
`<interpreter>`, line 1, and column `span.start + 1` regardless of where the
failing command sits in the real source. -/
theorem runtime_errors_use_empty_source_map :
    (∀ ctx arg span e, expand_single_argument ctx arg span = .error e →
       e.filenameOf = interpreterFilename ∧ e.lineOf = 1 ∧
         e.columnOf = span.start + 1) ∧
    (∀ (w : World) (st : InterpState) (name : Str) (args : List Str)
       (assignments : List (Str × Str)) (redirections : List Redirection)
       (span : Span) (expanded : List Str) (ctx2 : VariableContext),
       name ≠ str "echo" → name ≠ str "true" → name ≠ str "false" →
       expand_arguments (execute_assignments st assignments).variable_context
           args span = .ok (expanded, ctx2) →
       apply_redirections w redirections = .ok () →
       w.spawn name expanded redirections = none →
       execute_simple_command w st name args assignments redirections span =
         .errE (.commandNotFound name span interpreterFilename 1 (span.start + 1))) := by
  constructor
  · intro ctx arg span e h
    unfold expand_single_argument at h
    split at h
    · split at h
      · exact absurd h (by simp)
      · rw [undefined_variable_empty] at h
        injection h with h'
        subst h'
        exact ⟨rfl, rfl, rfl⟩
      · rw [mkSyn_empty] at h
        injection h with h'
        subst h'
        exact ⟨rfl, rfl, rfl⟩
    · split at h
      · split at h
        · exact absurd h (by simp)
        · rw [undefined_variable_empty] at h
          injection h with h'
          subst h'
          exact ⟨rfl, rfl, rfl⟩
        · rw [mkSyn_empty] at h
          injection h with h'
          subst h'
          exact ⟨rfl, rfl, rfl⟩
      · exact absurd h (by simp)
  · intro w st name args assignments redirections span expanded ctx2 h1 h2 h3
      hexp hred hspawn
    unfold execute_simple_command
    simp only [hexp]
    rw [if_neg h1, if_neg h2, if_neg h3, hred, hspawn, command_not_found_empty]

theorem runtime_errors_use_empty_source_map_witness :
    ((ShexError.undefinedVariable (str "x") ⟨5, 7⟩ interpreterFilename 1 6).filenameOf =
        interpreterFilename ∧
      (ShexError.undefinedVariable (str "x") ⟨5, 7⟩ interpreterFilename 1 6).lineOf = 1 ∧
      (ShexError.undefinedVariable (str "x") ⟨5, 7⟩ interpreterFilename 1 6).columnOf =
        (⟨5, 7⟩ : Span).start + 1) ∧
    execute_simple_command noSpawnWorld InterpState.new (str "foo") [] [] [] ⟨3, 6⟩ =
      .errE (.commandNotFound (str "foo") ⟨3, 6⟩ interpreterFilename 1 4) :=
  ⟨runtime_errors_use_empty_source_map.1 VariableContext.new (str "$x") ⟨5, 7⟩
      (.undefinedVariable (str "x") ⟨5, 7⟩ interpreterFilename 1 6) rfl,
   runtime_errors_use_empty_source_map.2 noSpawnWorld InterpState.new (str "foo")
      [] [] [] ⟨3, 6⟩ [] VariableContext.new (by decide) (by decide) (by decide)
      rfl rfl rfl⟩

/-- Claim C2: the expansion algebra on an unset variable `v`: `$v` and `${v}`
abort with `UndefinedVariable`; `${v:-d}` and `${v-d}` yield `d`;
`${v:=d}` and `${v=d}` yield `d` and afterwards `get v = d`; `${v:?}`
aborts with message `v: parameter null or not set`; `${v:+a}` yields the
empty string.  (The non-colon forms require the default text to contain no
`:`, otherwise the text does not parse as an expansion at all.) -/
theorem unset_variable_expansion_semantics (ctx : VariableContext) (v d a : Str)
    (span : Span) (hv : is_valid_variable_name v = true)
    (hunset : ctx.get v = none) :
    expand_single_argument ctx ('$' :: v) span =
      .error (.undefinedVariable v span interpreterFilename 1 (span.start + 1)) ∧
    expand_single_argument ctx ('$' :: '{' :: (v ++ ['}'])) span =
      .error (.undefinedVariable v span interpreterFilename 1 (span.start + 1)) ∧
    expand_single_argument ctx ('$' :: '{' :: ((v ++ ':' :: '-' :: d) ++ ['}'])) span =
      .ok (d, ctx) ∧
    (':' ∉ d →
      expand_single_argument ctx ('$' :: '{' :: ((v ++ '-' :: d) ++ ['}'])) span =
        .ok (d, ctx)) ∧
    (expand_single_argument ctx ('$' :: '{' :: ((v ++ ':' :: '=' :: d) ++ ['}'])) span =
        .ok (d, ctx.set v d) ∧
      (ctx.set v d).get v = some d) ∧
    (':' ∉ d →
      expand_single_argument ctx ('$' :: '{' :: ((v ++ '=' :: d) ++ ['}'])) span =
        .ok (d, ctx.set v d)) ∧
    expand_single_argument ctx ('$' :: '{' :: ((v ++ [':', '?']) ++ ['}'])) span =
      .error (.synError (v ++ str ": parameter null or not set") span
        interpreterFilename 1 (span.start + 1)) ∧
    expand_single_argument ctx ('$' :: '{' :: ((v ++ ':' :: '+' :: a) ++ ['}'])) span =
      .ok ([], ctx) := by
  refine ⟨?_, ?_, ?_, ?_, ⟨?_, get_set_self ctx v d⟩, ?_, ?_, ?_⟩
  · simp only [expand_single_argument, parse_simple_dollar v hv,
      ExpansionRequest.simple, resolve_expansion, hunset, undefined_variable_empty]
  · simp only [expand_single_argument, parse_simple_dollar_brace,
      parse_braced_plain v hv, ExpansionRequest.simple, resolve_expansion, hunset,
      undefined_variable_empty]
  · simp only [expand_single_argument, parse_simple_dollar_brace,
      parse_braced_colon_dash v d hv, resolve_expansion, hunset]
  · intro hd
    simp only [expand_single_argument, parse_simple_dollar_brace,
      parse_braced_bare_dash v d hv hd, resolve_expansion, hunset]
  · simp only [expand_single_argument, parse_simple_dollar_brace,
      parse_braced_colon_assign v d hv, resolve_expansion, hunset]
  · intro hd
    simp only [expand_single_argument, parse_simple_dollar_brace,
      parse_braced_bare_assign v d hv hd, resolve_expansion, hunset]
  · simp only [expand_single_argument, parse_simple_dollar_brace,
      parse_braced_colon_query_empty v hv, resolve_expansion, hunset, mkSyn_empty]
  · simp only [expand_single_argument, parse_simple_dollar_brace,
      parse_braced_colon_plus v a hv, resolve_expansion, hunset]

theorem unset_variable_expansion_semantics_witness :
    expand_single_argument VariableContext.new (str "$v") ⟨2, 4⟩ =
      .error (.undefinedVariable (str "v") ⟨2, 4⟩ interpreterFilename 1 3) ∧
    expand_single_argument VariableContext.new (str "${v}") ⟨2, 4⟩ =
      .error (.undefinedVariable (str "v") ⟨2, 4⟩ interpreterFilename 1 3) ∧
    expand_single_argument VariableContext.new (str "${v:-w}") ⟨2, 4⟩ =
      .ok (str "w", VariableContext.new) ∧
    expand_single_argument VariableContext.new (str "${v-w}") ⟨2, 4⟩ =
      .ok (str "w", VariableContext.new) ∧
    expand_single_argument VariableContext.new (str "${v:=w}") ⟨2, 4⟩ =
      .ok (str "w", VariableContext.new.set (str "v") (str "w")) ∧
    (VariableContext.new.set (str "v") (str "w")).get (str "v") = some (str "w") ∧
    expand_single_argument VariableContext.new (str "${v=w}") ⟨2, 4⟩ =
      .ok (str "w", VariableContext.new.set (str "v") (str "w")) ∧
    expand_single_argument VariableContext.new (str "${v:?}") ⟨2, 4⟩ =
      .error (.synError (str "v: parameter null or not set") ⟨2, 4⟩
        interpreterFilename 1 3) ∧
    expand_single_argument VariableContext.new (str "${v:+alt}") ⟨2, 4⟩ =
      .ok ([], VariableContext.new) := by
  obtain ⟨h1, h2, h3, h4, ⟨h5, h5g⟩, h6, h7, h8⟩ :=
    unset_variable_expansion_semantics VariableContext.new (str "v") (str "w")
      (str "alt") ⟨2, 4⟩ (by decide) rfl
  exact ⟨h1, h2, h3, h4 (by decide), h5, h5g, h6 (by decide), h7, h8⟩

/-- Claim C4: for a variable set to the empty string, the non-colon form `${v-d}`
ignores the null value and yields the empty string, while the colon form
`${v:-d}` treats null like unset and yields `d`.  (As in C2, the non-colon
form requires `d` to contain no `:` to parse as an expansion.) -/
theorem null_variable_default_semantics (ctx : VariableContext) (v d : Str)
    (span : Span) (hv : is_valid_variable_name v = true)
    (hnull : ctx.get v = some []) :
    (':' ∉ d →
      expand_single_argument ctx ('$' :: '{' :: ((v ++ '-' :: d) ++ ['}'])) span =
        .ok ([], ctx)) ∧
    expand_single_argument ctx ('$' :: '{' :: ((v ++ ':' :: '-' :: d) ++ ['}'])) span =
      .ok (d, ctx) := by
  constructor
  · intro hd
    simp only [expand_single_argument, parse_simple_dollar_brace,
      parse_braced_bare_dash v d hv hd, resolve_expansion, hnull]
    rfl
  · simp only [expand_single_argument, parse_simple_dollar_brace,
      parse_braced_colon_dash v d hv, resolve_expansion, hnull]
    rfl

theorem null_variable_default_semantics_witness :
    expand_single_argument (VariableContext.new.set (str "v") []) (str "${v-w}")
        ⟨0, 6⟩ = .ok ([], VariableContext.new.set (str "v") []) ∧
    expand_single_argument (VariableContext.new.set (str "v") []) (str "${v:-w}")
        ⟨0, 6⟩ = .ok (str "w", VariableContext.new.set (str "v") []) := by
  obtain ⟨h1, h2⟩ := null_variable_default_semantics
    (VariableContext.new.set (str "v") []) (str "v") (str "w") ⟨0, 6⟩
    (by decide) rfl
  exact ⟨h1 (by decide), h2⟩

end Shex
